import Mathlib

/-!
Verification of the MCP (tool-provider) client subsystem of the loomos
repository: a shallow embedding of the JSON-RPC session layer
(`src/mcp/session`), the per-server client state machine (`src/mcp/client`),
the tool adapter (`src/mcp/tools`), the discovery listener
(`src/mcp/server/discovery.ts`) and the manager (`src/mcp/index.ts`),
together with proofs and refutations of the specified properties.
-/

namespace Loomos

/-- JSON values, as produced by `JSON.parse` in the transports and the
discovery listener.  Object fields are an association list (keys produced by
`JSON.parse` are unique). -/
inductive Json where
  | null
  | bool (b : Bool)
  | num (n : Int)
  | str (s : String)
  | arr (elems : List Json)
  | obj (fields : List (String × Json))

/-- First-match lookup in an association list keyed by strings; models both
JS object property access and `Map.get`. -/
def alistGet {α : Type} : List (String × α) → String → Option α
  | [], _ => none
  | p :: rest, key => if p.1 = key then some p.2 else alistGet rest key

/-- Removal of a key; models `Map.delete` (the maps in the source keep at
most one entry per key). -/
def alistErase {α : Type} : List (String × α) → String → List (String × α)
  | [], _ => []
  | p :: rest, key =>
    if p.1 = key then alistErase rest key else p :: alistErase rest key

/-- `Map.set` semantics: overwrite in place when the key is present,
append otherwise. -/
def mapSet {α : Type} (l : List (String × α)) (key : String) (v : α) : List (String × α) :=
  if (alistGet l key).isSome then
    l.map (fun p => if p.1 = key then (key, v) else p)
  else l ++ [(key, v)]

/-- JavaScript truthiness of a parsed JSON value (`undefined` is represented
by an absent `Option`). -/
def truthy : Json → Bool
  | .null => false
  | .bool b => b
  | .num n => n != 0
  | .str s => s ≠ ""
  | .arr _ => true
  | .obj _ => true

/-- JS property access `j.k`: `undefined` (`none`) unless `j` is an object
with field `k`.  (Property access on primitives yields `undefined` for the
names used here.) -/
def jsGetField (j : Json) (key : String) : Option Json :=
  match j with
  | .obj fields => alistGet fields key
  | _ => none

/-- JS `x || d` on an optionally-present value: the value when present and
truthy, the fallback otherwise. -/
def jsOrDefault (v : Option Json) (d : Json) : Json :=
  match v with
  | some j => if truthy j then j else d
  | none => d

/-- The error object built by `parseJsonRpcResponse` (session/utils.ts):
`code: error.code || -32000`, `message: error.message || 'Unknown error'`,
`data: error.data`.  The `as number` / `as string` casts do not change the
runtime value, so code and message stay arbitrary JSON values. -/
structure JsonRpcErrorObj where
  code : Json
  message : Json
  data : Option Json

/-- `mkErrorObj e` models the error branch of `parseJsonRpcResponse`. -/
def mkErrorObj (e : Json) : JsonRpcErrorObj :=
  { code := jsOrDefault (jsGetField e "code") (Json.num (-32000))
    message := jsOrDefault (jsGetField e "message") (Json.str "Unknown error")
    data := jsGetField e "data" }

/-- The classified message produced by `parseJsonRpcResponse`
(session/utils.ts): `id` is the raw `msg.id` (`none` when absent), and
exactly one of the result / error / method shapes is filled in. -/
structure ParsedMsg where
  id : Option Json
  result : Option Json := none
  error : Option JsonRpcErrorObj := none
  method : Option Json := none
  params : Option Json := none

/-- `parseJsonRpcResponse` (session/utils.ts lines 16–45):
non-objects and objects whose `jsonrpc` field is not the string `"2.0"`
yield `null`; otherwise the message is classified as a response
(`'result' in msg`, or `'error' in msg` with a truthy error), a request /
notification (`'method' in msg`), and anything else yields `null`.
(Arrays pass the `typeof` guard in JS but have no `jsonrpc` property, so
they also yield `null`.) -/
def parseJsonRpcResponse (message : Json) : Option ParsedMsg :=
  match message with
  | .obj fields =>
    match alistGet fields "jsonrpc" with
    | some (.str ver) =>
      if ver = "2.0" then
      let msgId := alistGet fields "id"
      if (alistGet fields "result").isSome then
        some { id := msgId, result := alistGet fields "result" }
      else
        match alistGet fields "error" with
        | some e =>
          if truthy e then
            some { id := msgId, error := some (mkErrorObj e) }
          else if (alistGet fields "method").isSome then
            some { id := msgId, method := alistGet fields "method"
                   params := alistGet fields "params" }
          else none
        | none =>
          if (alistGet fields "method").isSome then
            some { id := msgId, method := alistGet fields "method"
                   params := alistGet fields "params" }
          else none
      else none
    | _ => none
  | _ => none

/-- A pending-request entry of the Session's `pendingRequests` map.  The
stored continuations are modelled observationally through `SEvent`s; the
method is the one captured by the request's timeout closure. -/
structure PendingEntry where
  method : String
deriving DecidableEq, Repr

/-- The private state of one Session (session/index.ts): the
`pendingRequests` map and the `handlerRegistered` flag. -/
structure SessionState where
  pending : List (String × PendingEntry)
  handlerRegistered : Bool
deriving DecidableEq, Repr

/-- Observable settlement of a caller's `request` promise: `resolved id v`
is `resolve(parsed.result)`, `rejected id m` is `reject(new Error(m))`
(the message value as JSON; timeout messages are strings). -/
inductive SEvent where
  | resolved (id : String) (value : Option Json)
  | rejected (id : String) (errMessage : Json)

/-- Calls a Session makes into its Transport. -/
inductive TransportAction where
  | send (id : Option String) (method : String) (params : Option Json)
  | close

/-- `Map.get(parsed.id as string)`: the map's keys are the strings produced
by `createId`, so only a string `id` can match. -/
def respKey : Option Json → Option String
  | some (.str s) => some s
  | _ => none

/-- `handleMessage` (session/index.ts lines 20–33): parse the inbound value;
when it is a classified message whose `id` matches a pending request, reject
on an error envelope or resolve on a result, then delete the entry;
everything else is ignored. -/
def handleMessage (s : SessionState) (message : Json) : SessionState × List SEvent :=
  match parseJsonRpcResponse message with
  | none => (s, [])
  | some parsed =>
    match respKey parsed.id with
    | none => (s, [])
    | some key =>
      match alistGet s.pending key with
      | none => (s, [])
      | some _ =>
        match parsed.error with
        | some e =>
          ({ s with pending := alistErase s.pending key }, [.rejected key e.message])
        | none =>
          ({ s with pending := alistErase s.pending key }, [.resolved key parsed.result])

/-- `const { timeout = 30000 } = options` (session/index.ts line 17). -/
def sessionTimeoutMs (opts : Option Nat) : Nat :=
  opts.getD 30000

/-- The synchronous part of `request` (session/index.ts lines 51–70): a fresh
id is generated, a `PendingRequest` carrying the resolve/reject continuations
is stored under it, and the JSON-RPC envelope
`{jsonrpc:'2.0', id, method, params}` is sent through the Transport. -/
def requestRegister (s : SessionState) (id method : String) (params : Option Json) :
    SessionState × TransportAction :=
  ({ s with pending := s.pending ++ [(id, { method := method })] },
   .send (some id) method params)

/-- The `setTimeout` callback of `request` (session/index.ts lines 56–59):
`pendingRequests.delete(id); reject(new Error('Request timeout: ' + method))`.
The raw `reject` settles the caller's promise only when it is still
unsettled, which (for a fired timer) is exactly when the entry is still in
the map.  No Transport call is made. -/
def fireTimeout (s : SessionState) (id method : String) :
    SessionState × List SEvent × List TransportAction :=
  if (alistGet s.pending id).isSome then
    ({ s with pending := alistErase s.pending id },
     [.rejected id (.str ("Request timeout: " ++ method))], [])
  else (s, [], [])

/-- Reaction of `request` to a rejection of the promise returned by
`transport.send`: the source neither awaits that promise nor attaches a
rejection handler to it (session/index.ts line 69), so a send failure
changes no session state and settles no caller promise. -/
def sendRejectionReaction (s : SessionState) (_sendError : Json) :
    SessionState × List SEvent :=
  (s, [])

/-- `close` (session/index.ts lines 78–81): `unregisterHandler()` then
`transport.close()`.  The pending map is not touched and no continuation is
settled. -/
def sessionClose (s : SessionState) : SessionState × List SEvent × List TransportAction :=
  ({ s with handlerRegistered := false }, [], [.close])

/-- `McpConnectionState` (types.ts lines 76–81). -/
inductive McpConnectionState where
  | disconnected
  | connecting
  | connected
  | reconnecting
  | error
deriving DecidableEq, Repr

/-- One property of a protocol tool's `inputSchema.properties`
(types.ts lines 35–40).  `enumList` and `defaultVal` embed the source's
`enum` and `default` fields. -/
structure McpToolProperty where
  type : String
  description : Option String
  enumList : Option (List String)
  defaultVal : Option Json

/-- A protocol-side `McpTool` descriptor (types.ts lines 30–44), with the
`inputSchema` object flattened (its `type` is the constant `'object'`). -/
structure McpTool where
  name : String
  description : String
  properties : List (String × McpToolProperty)
  required : Option (List String)

/-- An agent-side `Tool` (agent/prompt.ts lines 319–327) as the converter
builds it; property entries carry the four fields the converter writes. -/
structure ToolParameter where
  type : String
  description : String
  enumList : Option (List String)
  defaultVal : Option Json

/-- Agent-side `Tool`: namespaced name, description, and the
`parameters` object (its `type` is the constant `'object'`). -/
structure Tool where
  name : String
  description : String
  properties : List (String × ToolParameter)
  required : List String

/-- `toLoomosTool` (tools/converter.ts lines 10–28): namespaces the name as
`<serverId>_<name>`, prefixes the description with `[<serverId>] `, copies
each schema property (`description || ''`), and defaults `required` to `[]`. -/
def toLoomosTool (mcpTool : McpTool) (serverId : String) : Tool :=
  { name := serverId ++ "_" ++ mcpTool.name
    description := "[" ++ serverId ++ "] " ++ mcpTool.description
    properties := mcpTool.properties.map (fun p =>
      (p.1, { type := p.2.type
              description := (p.2.description).getD ""
              enumList := p.2.enumList
              defaultVal := p.2.defaultVal }))
    required := mcpTool.required.getD [] }

/-- Modelled from the spec: the repository has no inverse converter; the
spec's round-trip property defines the back conversion as stripping the
`<serverId>_` prefix from the namespaced name while carrying the remaining
fields back unchanged. -/
def fromLoomosTool (t : Tool) (serverId : String) : McpTool :=
  { name := t.name.drop (serverId.length + 1)
    description := t.description
    properties := t.properties.map (fun p =>
      (p.1, { type := p.2.type
              description := some p.2.description
              enumList := p.2.enumList
              defaultVal := p.2.defaultVal }))
    required := some t.required }

/-- `addTools` of the tool registry (tools/index.ts lines 16–21): each
descriptor is converted and stored in the registry map under its namespaced
name. -/
def addTools (reg : List (String × Tool)) (mcpTools : List McpTool) (serverId : String) :
    List (String × Tool) :=
  mcpTools.foldl (fun acc t =>
    let tool := toLoomosTool t serverId
    mapSet acc tool.name tool) reg

/-- The private fields of one `McpClient` closure (client/index.ts lines
14–18).  `hasTransport` / `hasSession` model the nullability of the
`transport` and `session` variables; capabilities are kept as the raw JSON
value the handshake returned. -/
structure ClientState where
  hasTransport : Bool
  hasSession : Bool
  tools : List (String × McpTool)
  capabilities : Option Json
  state : McpConnectionState

/-- The initial closure state of `createMcpClient`. -/
def initialClientState : ClientState :=
  { hasTransport := false, hasSession := false, tools := [], capabilities := none
    state := .disconnected }

/-- Outcomes of the `await`ed steps inside `connect` (client/index.ts lines
30–58): `transport.connect()`, the `initialize` request (its full response
envelope), and the `tools/list` request (its `tools` array).  An `error`
value is the thrown/rejected error's message. -/
structure ConnectEnv where
  transportConnect : Except String Unit
  initResp : Except String Json
  toolsListResp : Except String (List McpTool)

/-- `new Map(response.tools.map(t => [t.name, t]))` (client/index.ts line 81). -/
def toolsToMap (ts : List McpTool) : List (String × McpTool) :=
  ts.foldl (fun acc t => mapSet acc t.name t) []

/-- Result of running `connect`: the final closure state, the returned /
re-thrown outcome, and the sequence of assignments made to `state`. -/
structure ConnectOutcome where
  client : ClientState
  result : Except String Unit
  stateWrites : List McpConnectionState

/-- `connect` (client/index.ts lines 30–58): set `state = 'connecting'`,
create and connect the transport, create the session, issue `initialize`
(storing `initResponse.capabilities`), fetch and cache the tool list, then
set `state = 'connected'`; any failure sets `state = 'error'` and re-throws.
The `listTools` call's own `!session` guard cannot fire here because the
session was just created. -/
def connect (c : ClientState) (env : ConnectEnv) : ConnectOutcome :=
  let c1 : ClientState := { c with state := .connecting }
  let c2 : ClientState := { c1 with hasTransport := true }
  match env.transportConnect with
  | .error e => ⟨{ c2 with state := .error }, .error e, [.connecting, .error]⟩
  | .ok _ =>
    let c3 : ClientState := { c2 with hasSession := true }
    match env.initResp with
    | .error e => ⟨{ c3 with state := .error }, .error e, [.connecting, .error]⟩
    | .ok initResponse =>
      let c4 : ClientState := { c3 with capabilities := jsGetField initResponse "capabilities" }
      match env.toolsListResp with
      | .error e => ⟨{ c4 with state := .error }, .error e, [.connecting, .error]⟩
      | .ok ts =>
        let c5 : ClientState := { c4 with tools := toolsToMap ts }
        ⟨{ c5 with state := .connected }, .ok (), [.connecting, .connected]⟩

/-- `disconnect` (client/index.ts lines 60–70): close and null out session
and transport, set `state = 'disconnected'`. -/
def disconnect (c : ClientState) : ClientState :=
  { c with hasSession := false, hasTransport := false, state := .disconnected }

/-- Observable outcome of a `callTool` invocation: either a synchronously
thrown error, or the issuing of a `session.request` whose params carry the
tool name and arguments. -/
inductive CallOutcome where
  | thrown (message : String)
  | requested (method : String) (toolName : String) (args : List (String × Json))

/-- `callTool` of the client (client/index.ts lines 72–75): throws
`'Client not connected'` when `session` is null, otherwise issues
`session.request('tools/call', { name, arguments: args })`.  Note the guard
tests only the nullability of `session`, not `state`. -/
def clientCallTool (c : ClientState) (name : String) (args : List (String × Json)) :
    CallOutcome :=
  if c.hasSession = false then .thrown "Client not connected"
  else .requested "tools/call" name args

/-- The `McpServerState` snapshot (types.ts lines 83–92) as `getState`
computes it (client/index.ts lines 20–28); `lastConnectedAtSet` models
whether `lastConnectedAt` is a `Date` (state is `connected`) or `null`. -/
structure McpServerState where
  id : String
  name : String
  state : McpConnectionState
  capabilities : Option Json
  toolCount : Nat
  resourceCount : Nat
  lastConnectedAtSet : Bool

/-- `getState` (client/index.ts lines 20–28). -/
def clientGetState (cfgId cfgName : String) (c : ClientState) : McpServerState :=
  { id := cfgId, name := cfgName, state := c.state, capabilities := c.capabilities
    toolCount := c.tools.length, resourceCount := 0
    lastConnectedAtSet := c.state = .connected }

/-- A client object as stored by the manager and the server registry: the
configured id and name plus the live closure state.  Both maps hold
references to the same object, modelled by keying a shared store. -/
structure ManagedClient where
  name : String
  client : ClientState

/-- The manager's composition state (mcp/index.ts lines 24–29): its own
`clients` map, the server registry's map (server/registry.ts line 102) and
the tool registry's map (tools/index.ts line 13), the two maps holding
references into the shared client store. -/
structure ManagerState where
  clientStore : List (String × ManagedClient)
  clients : List String
  registryKeys : List String
  toolRegistry : List (String × Tool)

/-- Key membership in a map's key set; models `Map.get` returning a value. -/
def strMember : List String → String → Bool
  | [], _ => false
  | a :: rest, id => if a = id then true else strMember rest id

/-- Key removal; models `Map.delete` on the key set. -/
def strErase : List String → String → List String
  | [], _ => []
  | a :: rest, id => if a = id then strErase rest id else a :: strErase rest id

/-- `clients.get(id)` on the manager's own map. -/
def mgrGetClient (m : ManagerState) (id : String) : Option ManagedClient :=
  if strMember m.clients id then alistGet m.clientStore id else none

/-- JavaScript `String.prototype.split('_')` on a list of characters:
always at least one (possibly empty) piece. -/
def splitOnChar (sep : Char) : List Char → List (List Char)
  | [] => [[]]
  | c :: rest =>
    let r := splitOnChar sep rest
    if c = sep then [] :: r
    else
      match r with
      | [] => [[c]]
      | h :: t => (c :: h) :: t

/-- `name.split('_')` (mcp/index.ts line 92). -/
def jsSplitUnderscore (s : String) : List String :=
  (splitOnChar '_' s.data).map (fun cs => String.mk cs)

/-- `callTool` of the manager (mcp/index.ts lines 89–105): take
`name.split('_')[0]` as the server id, throw `Invalid tool name` when it is
falsy, throw `MCP server not found` when no client is registered under it,
and otherwise delegate to the client with the *unchanged* namespaced name. -/
def managerCallTool (m : ManagerState) (name : String) (args : List (String × Json)) :
    CallOutcome :=
  let serverId := (jsSplitUnderscore name).headD ""
  if serverId = "" then .thrown ("Invalid tool name: " ++ name)
  else
    match mgrGetClient m serverId with
    | none => .thrown ("MCP server not found: " ++ serverId)
    | some mc => clientCallTool mc.client name args

/-- `removeServer` (mcp/index.ts lines 112–118): when the id is in the
manager's own map, disconnect that client and delete the map entry; the
server registry and the tool registry are not touched. -/
def removeServer (m : ManagerState) (id : String) : ManagerState :=
  match mgrGetClient m id with
  | none => m
  | some mc =>
    { m with
      clientStore := mapSet m.clientStore id { mc with client := disconnect mc.client }
      clients := strErase m.clients id }

/-- `getTools` via the tool registry's `getAllTools` (tools/index.ts lines
27–29): the values of the registry map. -/
def getTools (m : ManagerState) : List Tool :=
  m.toolRegistry.map (fun p => p.2)

/-- `getServerStates` via the registry's `getStates` (server/registry.ts
lines 121–123): the `getState` snapshot of every registered client. -/
def getServerStates (m : ManagerState) : List McpServerState :=
  m.registryKeys.filterMap (fun id =>
    (alistGet m.clientStore id).map (fun mc => clientGetState id mc.name mc.client))

/-- An event emitted by the discovery listener. -/
inductive DiscoveryEvent where
  | serverFound (config : Json)

/-- An HTTP response of the discovery listener: status code,
`Content-Type` header, and body text. -/
structure HttpResponse where
  status : Nat
  contentType : String
  body : String

/-- The discovery listener's request handler (server/discovery.ts lines
45–70).  The request body is only ever consumed through `JSON.parse`, so it
is given here as that parse's outcome (`none` when `JSON.parse` throws):
`POST /announce` emits `serverFound` with the parsed value and answers 200,
or answers 400 on a parse failure; `GET /health` and `GET /servers` answer
200; everything else answers 404. -/
def discoveryHandle (method url : String) (parsedBody : Option Json) :
    HttpResponse × List DiscoveryEvent :=
  if method = "POST" ∧ url = "/announce" then
    match parsedBody with
    | some config =>
      (⟨200, "application/json", "\x7b\"status\":\"ok\"\x7d"⟩, [.serverFound config])
    | none =>
      (⟨400, "application/json", "\x7b\"error\":\"Invalid config\"\x7d"⟩, [])
  else if method = "GET" ∧ url = "/health" then
    (⟨200, "application/json", "\x7b\"status\":\"ok\"\x7d"⟩, [])
  else if method = "GET" ∧ url = "/servers" then
    (⟨200, "application/json",
      "\x7b\"message\":\"Server list endpoint - implement if needed\"\x7d"⟩, [])
  else
    (⟨404, "application/json", "\x7b\"error\":\"Not found\"\x7d"⟩, [])

/-- The required shape of a `McpServerConfig` (types.ts lines 13–28): string
`id` and `name` and a `transport` object whose `type` is one of the four
transport kinds (types.ts line 1). -/
def isValidServerConfig (j : Json) : Bool :=
  match j with
  | .obj fields =>
    (match alistGet fields "id" with
     | some (.str _) => true
     | _ => false) &&
    (match alistGet fields "name" with
     | some (.str _) => true
     | _ => false) &&
    (match alistGet fields "transport" with
     | some (.obj tfields) =>
       (match alistGet tfields "type" with
        | some (.str t) => t = "stdio" || t = "http" || t = "sse" || t = "websocket"
        | _ => false)
     | _ => false)
  | _ => false

/-! Concrete sample inputs used by witnesses and counterexamples. -/

/-- A connect environment whose `initialize` request fails after the
transport connected and the session was created. -/
def envInitFailure : ConnectEnv :=
  { transportConnect := .ok ()
    initResp := .error "initialize failed"
    toolsListResp := .error "not reached" }

/-- A sample protocol tool descriptor. -/
def sampleDescriptor : McpTool :=
  { name := "read_file", description := "Read a file"
    properties := [("path", ⟨"string", some "File path", none, none⟩)]
    required := some ["path"] }

/-- A connect environment in which every step succeeds. -/
def envAllOk : ConnectEnv :=
  { transportConnect := .ok ()
    initResp := .ok (Json.obj [("capabilities", Json.obj [("tools", Json.obj [])])])
    toolsListResp := .ok [sampleDescriptor] }

/-- A client for server `fs` in the fully connected shape `connect` leaves
behind. -/
def fsConnectedClient : ClientState :=
  { hasTransport := true, hasSession := true
    tools := [("read_file", sampleDescriptor)]
    capabilities := some (.obj []), state := .connected }

/-- A manager holding the single connected server `fs`, registered in the
server registry and with its converted tool in the tool registry. -/
def fsManager : ManagerState :=
  { clientStore := [("fs", ⟨"fs server", fsConnectedClient⟩)]
    clients := ["fs"], registryKeys := ["fs"]
    toolRegistry := [("fs_read_file", toLoomosTool sampleDescriptor "fs")] }

/-- A JSON-RPC success response bearing identifier `"a"` and result `7`. -/
def sampleResponseMsg : Json :=
  .obj [("jsonrpc", .str "2.0"), ("id", .str "a"), ("result", .num 7)]

/-! Helper lemmas about the association-list operations. -/

theorem alistGet_erase_self {α : Type} (l : List (String × α)) (k : String) :
    alistGet (alistErase l k) k = none := by
  induction l with
  | nil => rfl
  | cons p rest ih =>
    by_cases h : p.1 = k
    · simpa [alistErase, h] using ih
    · simpa [alistErase, alistGet, h] using ih

theorem alistGet_erase_ne {α : Type} (l : List (String × α)) (k j : String) (h : j ≠ k) :
    alistGet (alistErase l k) j = alistGet l j := by
  induction l with
  | nil => rfl
  | cons p rest ih =>
    by_cases hk : p.1 = k
    · have hj : p.1 ≠ j := by rw [hk]; exact fun hx => h hx.symm
      simpa [alistErase, alistGet, hk, hj, Ne.symm h] using ih
    · by_cases hj : p.1 = j
      · simp [alistErase, alistGet, hk, hj, h]
      · simpa [alistErase, alistGet, hk, hj] using ih

theorem alistGet_append_single {α : Type} (l : List (String × α)) (k : String) (v : α)
    (h : alistGet l k = none) : alistGet (l ++ [(k, v)]) k = some v := by
  induction l with
  | nil => simp [alistGet]
  | cons p rest ih =>
    by_cases hk : p.1 = k
    · simp [alistGet, hk] at h
    · simp only [alistGet, hk, if_false, List.cons_append] at h ⊢
      exact ih h

theorem alistGet_map_replace {α : Type} (l : List (String × α)) (k : String) (v : α)
    (h : (alistGet l k).isSome = true) :
    alistGet (l.map (fun p => if p.1 = k then (k, v) else p)) k = some v := by
  induction l with
  | nil => simp [alistGet] at h
  | cons p rest ih =>
    by_cases hk : p.1 = k
    · simp [alistGet, hk]
    · simp only [alistGet, hk, if_false] at h
      simpa [alistGet, hk] using ih h

theorem alistGet_mapSet_self {α : Type} (l : List (String × α)) (k : String) (v : α) :
    alistGet (mapSet l k v) k = some v := by
  unfold mapSet
  by_cases h : (alistGet l k).isSome
  · rw [if_pos h]
    exact alistGet_map_replace l k v h
  · rw [if_neg h]
    have hn : alistGet l k = none := by
      cases hh : alistGet l k with
      | none => rfl
      | some w => rw [hh] at h; simp at h
    exact alistGet_append_single l k v hn

theorem strMember_strErase_self (l : List String) (id : String) :
    strMember (strErase l id) id = false := by
  induction l with
  | nil => rfl
  | cons a rest ih =>
    by_cases h : a = id
    · simpa [strErase, h] using ih
    · simpa [strErase, strMember, h] using ih

theorem drop_length_add_one_append (a n : String) :
    (a ++ "_" ++ n).drop (a.length + 1) = n := by
  rw [String.drop_eq]
  show String.mk (((a ++ "_") ++ n).data.drop (a.length + 1)) = n
  have h1 : ((a ++ "_") ++ n).data = (a.data ++ ['_']) ++ n.data := rfl
  rw [h1, List.drop_left' (by rw [List.length_append]; rfl)]

theorem fireTimeout_of_pending (s : SessionState) (id method : String) (e : PendingEntry)
    (h : alistGet s.pending id = some e) :
    fireTimeout s id method
      = (⟨alistErase s.pending id, s.handlerRegistered⟩,
         [SEvent.rejected id (.str ("Request timeout: " ++ method))], []) := by
  have hs : (alistGet s.pending id).isSome = true := by rw [h]; rfl
  unfold fireTimeout
  rw [if_pos hs]

/-! The claims. -/

/-- C1: the claim demands that `callTool` on a Client whose state is not
`connected` fail immediately without issuing any request.  The code guards
only on the nullability of `session`, so after a `connect()` that failed at
the `initialize` step (session already created, state set to `'error'`),
`callTool` still issues a `tools/call` request through the Session instead
of failing: the code contradicts the specified fail-fast behaviour. -/
theorem callTool_in_error_state_issues_request :
    (connect initialClientState envInitFailure).client.state = .error ∧
    (connect initialClientState envInitFailure).client.state ≠ .connected ∧
    clientCallTool (connect initialClientState envInitFailure).client "read_file" []
      = .requested "tools/call" "read_file" [] :=
  ⟨rfl, by decide, rfl⟩

/-- C2: the claim demands that `Session.close()` reject every still-pending
continuation before tearing down the Transport.  Evaluating the code on a
session with one outstanding request shows `close` settles no continuation
(no `SEvent` at all), leaves the pending entry in the map, and closes the
transport anyway. -/
theorem close_settles_no_pending_request :
    (sessionClose ⟨[("a", ⟨"tools/call"⟩)], true⟩).2.1 = [] ∧
    (sessionClose ⟨[("a", ⟨"tools/call"⟩)], true⟩).1.pending = [("a", ⟨"tools/call"⟩)] ∧
    (sessionClose ⟨[("a", ⟨"tools/call"⟩)], true⟩).2.2 = [TransportAction.close] :=
  ⟨rfl, rfl, rfl⟩

/-- C3: the claim says the owning server is resolved from the namespaced
name (which holds: the unknown-prefix case throws `MCP server not found`)
and that the server then receives the call for its own un-prefixed tool
name.  Evaluating the code shows the Manager delegates with the *unchanged*
namespaced name `fs_read_file`, not `read_file`. -/
theorem managerCallTool_forwards_namespaced_name :
    managerCallTool fsManager "fs_read_file" [("path", Json.str "/tmp/a")]
      = .requested "tools/call" "fs_read_file" [("path", Json.str "/tmp/a")] ∧
    ("fs_read_file" : String) ≠ "read_file" ∧
    managerCallTool fsManager "nosuch_tool" []
      = .thrown "MCP server not found: nosuch" :=
  ⟨rfl, by decide, rfl⟩

/-- C4 counterexample: the round trip does not preserve the description —
converting and stripping the name prefix returns the description with the
`[<serverId>] ` prefix attached, not the original. -/
theorem roundtrip_description_not_preserved :
    (fromLoomosTool (toLoomosTool sampleDescriptor "fs") "fs").description
      ≠ sampleDescriptor.description := by
  decide

/-- C4 (amended): converting a protocol descriptor to an agent Tool and back
(stripping the `<serverId>_` name prefix) preserves the original tool name
and the original required-parameter set (an absent `required` list comes
back empty), while the description comes back with the `[<serverId>] `
prefix prepended rather than unchanged. -/
theorem roundtrip_preserves_name_and_required (t : McpTool) (serverId : String) :
    (fromLoomosTool (toLoomosTool t serverId) serverId).name = t.name ∧
    ((fromLoomosTool (toLoomosTool t serverId) serverId).required).getD []
      = t.required.getD [] ∧
    (fromLoomosTool (toLoomosTool t serverId) serverId).description
      = "[" ++ serverId ++ "] " ++ t.description := by
  refine ⟨?_, rfl, rfl⟩
  exact drop_length_add_one_append serverId t.name

/-- C7 counterexample: the payload `42` is valid JSON but not a well-formed
`McpServerConfig`, yet the `/announce` handler answers 200 and emits a
`serverFound` event carrying it (which the Manager's listener would feed to
`addServer`, creating a Client), contradicting the claim that malformed
payloads get 400 with no side effects. -/
theorem announce_accepts_nonconfig_json :
    isValidServerConfig (Json.num 42) = false ∧
    discoveryHandle "POST" "/announce" (some (Json.num 42))
      = (⟨200, "application/json", "\x7b\"status\":\"ok\"\x7d"⟩,
         [DiscoveryEvent.serverFound (Json.num 42)]) :=
  ⟨rfl, rfl⟩

/-- C7 (amended): `POST /announce` answers 200 and emits exactly one
`serverFound` event carrying the parsed body whenever the body parses as
JSON at all — no validation against the ServerConfig shape is performed —
and answers 400 with no event only when `JSON.parse` throws. -/
theorem announce_parse_decides_outcome (j : Json) :
    discoveryHandle "POST" "/announce" (some j)
      = (⟨200, "application/json", "\x7b\"status\":\"ok\"\x7d"⟩,
         [DiscoveryEvent.serverFound j]) ∧
    discoveryHandle "POST" "/announce" none
      = (⟨400, "application/json", "\x7b\"error\":\"Invalid config\"\x7d"⟩, []) :=
  ⟨rfl, rfl⟩

/-- C5: a fired request timeout rejects that caller with
`Request timeout: <method>` (naming the method), removes exactly that
PendingRequest (every other entry is untouched), makes no Transport call,
and a late response bearing the same identifier afterwards is a no-op; the
default timeout is 30000 ms. -/
theorem request_timeout_is_scoped (s : SessionState) (id method : String) (e : PendingEntry)
    (hpend : alistGet s.pending id = some e) :
    (fireTimeout s id method).2.1
      = [SEvent.rejected id (.str ("Request timeout: " ++ method))] ∧
    alistGet (fireTimeout s id method).1.pending id = none ∧
    (∀ j, j ≠ id → alistGet (fireTimeout s id method).1.pending j = alistGet s.pending j) ∧
    (fireTimeout s id method).2.2 = [] ∧
    sessionTimeoutMs none = 30000 ∧
    (∀ msg p, parseJsonRpcResponse msg = some p → p.id = some (.str id) →
      handleMessage (fireTimeout s id method).1 msg = ((fireTimeout s id method).1, [])) := by
  rw [fireTimeout_of_pending s id method e hpend]
  refine ⟨rfl, alistGet_erase_self s.pending id, ?_, rfl, rfl, ?_⟩
  · intro j hj
    exact alistGet_erase_ne s.pending id j hj
  · intro msg p hp hid
    simp [handleMessage, hp, hid, respKey, alistGet_erase_self]

/-- C5 witness: the timeout of request `"a"` for `tools/call` on a session
holding only that request. -/
theorem request_timeout_is_scoped_witness :
    (fireTimeout ⟨[("a", ⟨"tools/call"⟩)], true⟩ "a" "tools/call").2.1
      = [SEvent.rejected "a" (.str "Request timeout: tools/call")] ∧
    alistGet (fireTimeout ⟨[("a", ⟨"tools/call"⟩)], true⟩ "a" "tools/call").1.pending "a"
      = none :=
  ⟨(request_timeout_is_scoped ⟨[("a", ⟨"tools/call"⟩)], true⟩ "a" "tools/call"
      ⟨"tools/call"⟩ rfl).1,
   (request_timeout_is_scoped ⟨[("a", ⟨"tools/call"⟩)], true⟩ "a" "tools/call"
      ⟨"tools/call"⟩ rfl).2.1⟩

/-- C6: an inbound response whose identifier matches an outstanding
PendingRequest resolves (or, on an error envelope, rejects) exactly that
request and removes exactly that entry, while a response with an unknown or
non-string identifier, or an unparseable message, leaves the session
unchanged with no event. -/
theorem response_dispatch_exact (s : SessionState) (msg : Json) :
    (∀ p key e, parseJsonRpcResponse msg = some p → respKey p.id = some key →
      alistGet s.pending key = some e → p.error = none →
      handleMessage s msg
        = ({ s with pending := alistErase s.pending key }, [.resolved key p.result])) ∧
    (∀ p key e err, parseJsonRpcResponse msg = some p → respKey p.id = some key →
      alistGet s.pending key = some e → p.error = some err →
      handleMessage s msg
        = ({ s with pending := alistErase s.pending key }, [.rejected key err.message])) ∧
    (∀ key j, j ≠ key → alistGet (alistErase s.pending key) j = alistGet s.pending j) ∧
    (∀ p key, parseJsonRpcResponse msg = some p → respKey p.id = some key →
      alistGet s.pending key = none → handleMessage s msg = (s, [])) ∧
    (∀ p, parseJsonRpcResponse msg = some p → respKey p.id = none →
      handleMessage s msg = (s, [])) ∧
    (parseJsonRpcResponse msg = none → handleMessage s msg = (s, [])) := by
  refine ⟨?_, ?_, ?_, ?_, ?_, ?_⟩
  · intro p key e hp hk he herr
    simp [handleMessage, hp, hk, he, herr]
  · intro p key e err hp hk he herr
    simp [handleMessage, hp, hk, he, herr]
  · intro key j hj
    exact alistGet_erase_ne s.pending key j hj
  · intro p key hp hk hnone
    simp [handleMessage, hp, hk, hnone]
  · intro p hp hk
    simp [handleMessage, hp, hk]
  · intro hp
    simp [handleMessage, hp]

/-- C6 witness: the sample response for identifier `"a"` resolves the single
pending request of a session and empties its pending map. -/
theorem response_dispatch_exact_witness :
    handleMessage ⟨[("a", ⟨"m"⟩)], true⟩ sampleResponseMsg
      = (⟨[], true⟩, [SEvent.resolved "a" (some (.num 7))]) :=
  (response_dispatch_exact ⟨[("a", ⟨"m"⟩)], true⟩ sampleResponseMsg).1
    ⟨some (.str "a"), some (.num 7), none, none, none⟩ "a" ⟨"m"⟩ rfl rfl rfl rfl

/-- C8: `connect` first writes `'connecting'`; the final state is
`'connected'` exactly when transport connection, the `initialize` handshake
(whose `capabilities` field is stored) and the initial `tools/list` fetch
(which populates the tool cache) all succeed; any failing step leaves state
`'error'` and re-throws that same failure. -/
theorem connect_state_machine (c : ClientState) (env : ConnectEnv) :
    (connect c env).stateWrites.head? = some .connecting ∧
    ((connect c env).client.state = .connected ↔
      (env.transportConnect.isOk = true ∧ env.initResp.isOk = true ∧
        env.toolsListResp.isOk = true)) ∧
    (∀ r ts, env.transportConnect = .ok () → env.initResp = .ok r →
      env.toolsListResp = .ok ts →
      (connect c env).client.capabilities = jsGetField r "capabilities" ∧
      (connect c env).client.tools = toolsToMap ts ∧
      (connect c env).result = .ok ()) ∧
    (∀ e, env.transportConnect = .error e →
      (connect c env).client.state = .error ∧ (connect c env).result = .error e) ∧
    (∀ e, env.transportConnect = .ok () → env.initResp = .error e →
      (connect c env).client.state = .error ∧ (connect c env).result = .error e) ∧
    (∀ r e, env.transportConnect = .ok () → env.initResp = .ok r →
      env.toolsListResp = .error e →
      (connect c env).client.state = .error ∧ (connect c env).result = .error e) := by
  obtain ⟨tc, ir, tr⟩ := env
  refine ⟨?_, ?_, ?_, ?_, ?_, ?_⟩
  · cases tc <;> cases ir <;> cases tr <;> rfl
  · cases tc <;> cases ir <;> cases tr <;>
      simp [connect, Except.isOk, Except.toBool]
  · intro r ts h1 h2 h3
    cases tc <;> cases ir <;> cases tr <;> simp_all [connect]
  · intro e h1
    cases tc <;> simp_all [connect]
  · intro e h1 h2
    cases tc <;> cases ir <;> simp_all [connect]
  · intro r e h1 h2 h3
    cases tc <;> cases ir <;> cases tr <;> simp_all [connect]

/-- C8 witness: a fully successful environment reaches `'connected'` with
the tool cache populated, and the environment whose handshake fails ends in
`'error'`; both traces start with `'connecting'`. -/
theorem connect_state_machine_witness :
    (connect initialClientState envAllOk).stateWrites.head? = some .connecting ∧
    (connect initialClientState envAllOk).client.state = .connected ∧
    (connect initialClientState envAllOk).client.tools = toolsToMap [sampleDescriptor] ∧
    (connect initialClientState envInitFailure).client.state = .error := by
  have h := connect_state_machine initialClientState envAllOk
  have hf := connect_state_machine initialClientState envInitFailure
  exact ⟨h.1, h.2.1.mpr ⟨rfl, rfl, rfl⟩, (h.2.2.1 _ _ rfl rfl rfl).2.1,
    (hf.2.2.2.2.1 "initialize failed" rfl rfl).1⟩

/-- C9: when `transport.send`'s promise rejects, the session reacts with no
state change and no settlement (the source attaches no handler to that
promise), so the registered PendingRequest stays in the map and that caller
is only failed later, when its own timeout fires with the timeout error. -/
theorem send_failure_leaves_request_pending (s : SessionState) (id method : String)
    (params : Option Json) (err : Json)
    (hfresh : alistGet s.pending id = none) :
    sendRejectionReaction (requestRegister s id method params).1 err
      = ((requestRegister s id method params).1, []) ∧
    alistGet (sendRejectionReaction (requestRegister s id method params).1 err).1.pending id
      = some ⟨method⟩ ∧
    (fireTimeout (sendRejectionReaction (requestRegister s id method params).1 err).1
        id method).2.1
      = [SEvent.rejected id (.str ("Request timeout: " ++ method))] := by
  have hget : alistGet (s.pending ++ [(id, ⟨method⟩)]) id = some ⟨method⟩ :=
    alistGet_append_single s.pending id ⟨method⟩ hfresh
  refine ⟨rfl, hget, ?_⟩
  rw [fireTimeout_of_pending
    ((sendRejectionReaction (requestRegister s id method params).1 err).1) id method
    ⟨method⟩ hget]

/-- C9 witness: the request `"a"` on an empty session survives a send
failure and is still rejected by its own timeout. -/
theorem send_failure_leaves_request_pending_witness :
    alistGet (sendRejectionReaction (requestRegister ⟨[], false⟩ "a" "tools/call" none).1
      (Json.str "boom")).1.pending "a" = some ⟨"tools/call"⟩ :=
  (send_failure_leaves_request_pending ⟨[], false⟩ "a" "tools/call" none
    (Json.str "boom") rfl).2.1

/-- C10: `removeServer` on a registered id disconnects that client and drops
it from the manager's own client map, but leaves the tool registry and the
server registry untouched, so `getTools` is unchanged and `getServerStates`
still reports an entry for the removed server. -/
theorem removeServer_frame (m : ManagerState) (id : String) (mc : ManagedClient)
    (hmem : strMember m.clients id = true) (hstore : alistGet m.clientStore id = some mc) :
    (removeServer m id).toolRegistry = m.toolRegistry ∧
    (removeServer m id).registryKeys = m.registryKeys ∧
    getTools (removeServer m id) = getTools m ∧
    alistGet (removeServer m id).clientStore id = some ⟨mc.name, disconnect mc.client⟩ ∧
    strMember (removeServer m id).clients id = false ∧
    (id ∈ m.registryKeys →
      clientGetState id mc.name (disconnect mc.client) ∈ getServerStates (removeServer m id)) := by
  have hget : mgrGetClient m id = some mc := by
    unfold mgrGetClient
    rw [if_pos hmem, hstore]
  have hrm : removeServer m id
      = { m with clientStore := mapSet m.clientStore id ⟨mc.name, disconnect mc.client⟩
                 clients := strErase m.clients id } := by
    unfold removeServer
    rw [hget]
  rw [hrm]
  refine ⟨rfl, rfl, rfl, ?_, ?_, ?_⟩
  · exact alistGet_mapSet_self m.clientStore id ⟨mc.name, disconnect mc.client⟩
  · exact strMember_strErase_self m.clients id
  · intro hr
    refine List.mem_filterMap.mpr ⟨id, hr, ?_⟩
    show (alistGet (mapSet m.clientStore id ⟨mc.name, disconnect mc.client⟩) id).map
      (fun mc => clientGetState id mc.name mc.client)
      = some (clientGetState id mc.name (disconnect mc.client))
    rw [alistGet_mapSet_self m.clientStore id ⟨mc.name, disconnect mc.client⟩]
    rfl

/-- C10 witness: removing server `fs` from the sample manager keeps its tool
registry, empties its client map, and still reports a (now disconnected)
state entry for `fs`. -/
theorem removeServer_frame_witness :
    (removeServer fsManager "fs").toolRegistry = fsManager.toolRegistry ∧
    strMember (removeServer fsManager "fs").clients "fs" = false ∧
    clientGetState "fs" "fs server" (disconnect fsConnectedClient)
      ∈ getServerStates (removeServer fsManager "fs") := by
  have h := removeServer_frame fsManager "fs" ⟨"fs server", fsConnectedClient⟩ rfl rfl
  exact ⟨h.1, h.2.2.2.2.1, h.2.2.2.2.2 (by decide)⟩

end Loomos
